import Mathlib

/-!
Verification of the capture loop in `src/raspi/raspi-decawave-serial.py`.

The script bridges a non-blocking serial byte stream and an output file:
it repeatedly reads one line, writes it to the file, and when the line
starts with the configured marker it additionally samples the raw
monotonic clock and writes a `RPI_rx_ts_nanosec:<n>` record.

The embedding models each iteration as a trace of observable events
(reads, writes, clock samples, open/close/print, raised faults), so that
ordering properties of the I/O and of the clock sample are stated on the
trace, and the contents of the output sink are the concatenation of the
payloads of the write events.
-/

/-- Faults that can end the capture loop of `main` (source lines 18-25):
the operator interrupt (`KeyboardInterrupt`) or one of the uncaught fault
kinds named by the specification. -/
inductive LoopFault where
  | keyboardInterrupt
  | deviceDisconnect
  | readError
  | decodeError
  | writeError
deriving DecidableEq

/-- Observable events of a run: a line returned by `sio.readline()`, a
string written to the sink by `fh.write(...)`, a sample of
`time.clock_gettime_ns(time.CLOCK_MONOTONIC_RAW)`, the open of the sink,
a `print`, the close of the sink, and an uncaught fault leaving `main`. -/
inductive Event where
  | readLine (line : String)
  | writeStr (s : String)
  | clockSample (t : Nat)
  | openSink (filename : String)
  | printMsg (msg : String)
  | closeSink
  | raiseFault (f : LoopFault)
deriving DecidableEq

/-- Embedding of Python `line.startswith(pointMarker)` (source line 11):
`str.startswith` holds when the marker's code points are an initial
segment of the line's code points. -/
def startswith (line marker : String) : Bool :=
  marker.data.isPrefixOf line.data

/-- The string written at source line 13:
`"RPI_rx_ts_nanosec:" + str(systime)`.  Note the source appends no
newline to it. -/
def tsRecord (t : Nat) : String :=
  "RPI_rx_ts_nanosec:" ++ toString t

/-- Embedding of `forwardLine(fh, sio, pointMarker)` (source lines 8-13)
for one iteration in which `sio.readline()` returns `line` and the
monotonic raw clock reads `t`: the line is read, written to the sink, and
if it starts with the marker the clock is sampled and the timestamp
record is written. -/
def forwardLine (marker : String) (t : Nat) (line : String) : List Event :=
  [Event.readLine line, Event.writeStr line] ++
    (if startswith line marker then
      [Event.clockSample t, Event.writeStr (tsRecord t)]
    else [])

/-- The `while True: forwardLine(fh, sio, pointMarker)` loop (source
lines 21-22), run over the successive results of `sio.readline()` with
iteration counter `i`; `clock i` is the value the monotonic raw clock
would return if sampled at iteration `i`. -/
def captureFrom (marker : String) (clock : Nat → Nat) : Nat → List String → List Event
  | _, [] => []
  | i, l :: ls => forwardLine marker (clock i) l ++ captureFrom marker clock (i + 1) ls

/-- The capture loop started at iteration 0. -/
def captureLoop (marker : String) (clock : Nat → Nat) (lines : List String) : List Event :=
  captureFrom marker clock 0 lines

/-- The sequence of strings written to the output sink by a trace, in
order: the payloads of the `fh.write` events. -/
def writes (evs : List Event) : List String :=
  evs.filterMap fun e =>
    match e with
    | Event.writeStr s => some s
    | _ => none

/-- The flat text contents of the output sink: the concatenation of all
written strings in order. -/
def output (evs : List Event) : String :=
  String.join (writes evs)

/-- The successive values returned by the monotonic clock samples of a
trace, in order. -/
def sampleValues (evs : List Event) : List Nat :=
  evs.filterMap fun e =>
    match e with
    | Event.clockSample t => some t
    | _ => none

/-- Embedding of `main(filename, pointMarker)` (source lines 15-25): the
sink is opened and a message printed; the loop runs until fault `f`
occurs after processing `lines`; `except KeyboardInterrupt` closes the
sink and prints, while any other fault leaves `main` uncaught without
closing the sink. -/
def mainRun (filename marker : String) (clock : Nat → Nat)
    (lines : List String) (f : LoopFault) : List Event :=
  Event.openSink filename :: Event.printMsg "filename opened!" ::
    (captureLoop marker clock lines ++
      match f with
      | LoopFault.keyboardInterrupt =>
          [Event.closeSink, Event.printMsg (filename ++ " closed!")]
      | g => [Event.raiseFault g])

/-- Specification-side description of the written output (used to compare
with the code): every line appears verbatim, and a line starting with the
marker is immediately followed by exactly one timestamp record carrying
that iteration's clock value. -/
def annotatedWrites (marker : String) (clock : Nat → Nat) : Nat → List String → List String
  | _, [] => []
  | i, l :: ls =>
      (if startswith l marker then [l, tsRecord (clock i)] else [l]) ++
        annotatedWrites marker clock (i + 1) ls

/-- Specification-side description for an empty marker: every line is
immediately followed by exactly one timestamp record. -/
def interleaveTs (clock : Nat → Nat) : Nat → List String → List String
  | _, [] => []
  | i, l :: ls => l :: tsRecord (clock i) :: interleaveTs clock (i + 1) ls

/-- Iteration indices of the lines that start with the marker. -/
def matchedIdx (marker : String) : Nat → List String → List Nat
  | _, [] => []
  | i, l :: ls =>
      (if startswith l marker then [i] else []) ++ matchedIdx marker (i + 1) ls

/-- True of `fh.write` events. -/
def isWriteEv : Event → Bool
  | Event.writeStr _ => true
  | _ => false

/-- True of clock-sample events. -/
def isSampleEv : Event → Bool
  | Event.clockSample _ => true
  | _ => false

/-- The claim that, within one iteration's trace, the clock sample occurs
before any write to the output sink. -/
def sampleBeforeWrite (evs : List Event) : Prop :=
  evs.findIdx isSampleEv < evs.findIdx isWriteEv

/-- The characters of a buffer up to and including its first newline. -/
def takeThroughNL : List Char → List Char
  | [] => []
  | c :: cs => if c = '\n' then [c] else c :: takeThroughNL cs

/-- The characters of a buffer after its first newline. -/
def dropThroughNL : List Char → List Char
  | [] => []
  | c :: cs => if c = '\n' then cs else dropThroughNL cs

/-- Model of one `sio.readline()` call on the line-framing layer
`io.TextIOWrapper(io.BufferedReader(ser))` over the zero-timeout
(non-blocking) serial port opened at source lines 19-20.  `buf` is the
text already buffered by the framing layer; `chunks` are the successive
results of raw reads from the port, where `""` is a raw read that finds
no data available (with `timeout=0` the read returns immediately with no
bytes, which the buffered reader treats as end of data for this call).
The call returns the line produced, the leftover buffer, and the
remaining raw stream: a buffered newline ends the call; otherwise raw
reads are consumed until a newline arrives or a read comes back empty,
in which case whatever is buffered — a partial line or the empty
string — is returned as the "line". -/
def readlineFrom (buf : String) (chunks : List String) : String × String × List String :=
  if buf.data.contains '\n' then
    (⟨takeThroughNL buf.data⟩, ⟨dropThroughNL buf.data⟩, chunks)
  else
    match chunks with
    | [] => (buf, "", [])
    | c :: cs => if c = "" then (buf, "", cs) else readlineFrom (buf ++ c) cs

/-- Splits a character stream into physical lines at newline characters,
accumulating the current line in reverse in `acc`. -/
def splitLinesAux : List Char → List Char → List String
  | acc, [] => [⟨acc.reverse⟩]
  | acc, c :: cs =>
      if c = '\n' then ⟨acc.reverse⟩ :: splitLinesAux [] cs
      else splitLinesAux (c :: acc) cs

/-- The physical text lines of the output sink's contents (what a
line-oriented reader of the output file sees). -/
def physicalLines (s : String) : List String :=
  splitLinesAux [] s.data

/-- The property claimed of the framing layer: a `readline` call returns
a nonempty, newline-terminated (complete) line. -/
def returnsCompleteLine (buf : String) (chunks : List String) : Prop :=
  (readlineFrom buf chunks).1.data ≠ [] ∧
    (readlineFrom buf chunks).1.data.getLast? = some '\n'

/-! Helper lemmas shared by the claim theorems. -/

theorem writes_append (a b : List Event) : writes (a ++ b) = writes a ++ writes b :=
  List.filterMap_append a b _

theorem sampleValues_append (a b : List Event) :
    sampleValues (a ++ b) = sampleValues a ++ sampleValues b :=
  List.filterMap_append a b _

theorem writes_forwardLine (marker : String) (t : Nat) (l : String) :
    writes (forwardLine marker t l) =
      if startswith l marker then [l, tsRecord t] else [l] := by
  unfold forwardLine writes
  split <;> simp [List.filterMap]

theorem writes_captureFrom (marker : String) (clock : Nat → Nat) :
    ∀ (i : Nat) (ls : List String),
      writes (captureFrom marker clock i ls) = annotatedWrites marker clock i ls
  | _, [] => rfl
  | i, l :: ls => by
      rw [captureFrom, writes_append, writes_forwardLine,
        writes_captureFrom marker clock (i + 1) ls, annotatedWrites]

theorem sampleValues_forwardLine (marker : String) (t : Nat) (l : String) :
    sampleValues (forwardLine marker t l) =
      if startswith l marker then [t] else [] := by
  unfold forwardLine sampleValues
  split <;> simp [List.filterMap]

theorem sampleValues_captureFrom (marker : String) (clock : Nat → Nat) :
    ∀ (i : Nat) (ls : List String),
      sampleValues (captureFrom marker clock i ls) = (matchedIdx marker i ls).map clock
  | _, [] => rfl
  | i, l :: ls => by
      rw [captureFrom, sampleValues_append, sampleValues_forwardLine,
        sampleValues_captureFrom marker clock (i + 1) ls, matchedIdx]
      split <;> simp

theorem matchedIdx_ge (marker : String) :
    ∀ (i : Nat) (ls : List String) (j : Nat), j ∈ matchedIdx marker i ls → i ≤ j := by
  intro i ls
  induction ls generalizing i with
  | nil => intro j h; simp [matchedIdx] at h
  | cons l ls ih =>
      intro j h
      rw [matchedIdx] at h
      rcases List.mem_append.1 h with h1 | h2
      · split at h1
        · simp at h1; omega
        · simp at h1
      · exact Nat.le_of_succ_le (ih (i + 1) j h2)

theorem matchedIdx_chain (marker : String) :
    ∀ (i : Nat) (ls : List String), List.Chain' (· < ·) (matchedIdx marker i ls) := by
  intro i ls
  induction ls generalizing i with
  | nil => simp [matchedIdx]
  | cons l ls ih =>
      rw [matchedIdx]
      split
      · rw [List.singleton_append, List.chain'_cons']
        refine ⟨fun y hy => ?_, ih (i + 1)⟩
        have := matchedIdx_ge marker (i + 1) ls y (List.mem_of_mem_head? hy)
        omega
      · rw [List.nil_append]
        exact ih (i + 1)

theorem mem_captureFrom (marker : String) (clock : Nat → Nat) :
    ∀ (i : Nat) (ls : List String) (e : Event), e ∈ captureFrom marker clock i ls →
      (∃ l, e = Event.readLine l) ∨ (∃ s, e = Event.writeStr s) ∨
        (∃ t, e = Event.clockSample t) := by
  intro i ls
  induction ls generalizing i with
  | nil => intro e h; simp [captureFrom] at h
  | cons l ls ih =>
      intro e h
      rw [captureFrom] at h
      rcases List.mem_append.1 h with h1 | h2
      · unfold forwardLine at h1
        rcases List.mem_append.1 h1 with h3 | h4
        · simp at h3
          rcases h3 with h | h <;> simp [h]
        · split at h4 <;> simp at h4
          rcases h4 with h | h <;> simp [h]
      · exact ih (i + 1) e h2

theorem sublist_annotatedWrites (marker : String) (clock : Nat → Nat) :
    ∀ (i : Nat) (ls : List String), List.Sublist ls (annotatedWrites marker clock i ls) := by
  intro i ls
  induction ls generalizing i with
  | nil => simp [annotatedWrites]
  | cons l ls ih =>
      rw [annotatedWrites]
      split
      · exact List.Sublist.cons₂ l (List.Sublist.cons (tsRecord (clock i)) (ih (i + 1)))
      · exact List.Sublist.cons₂ l (ih (i + 1))

theorem startswith_empty_marker (l : String) : startswith l "" = true := by
  simp [startswith]

theorem annotatedWrites_empty_marker (clock : Nat → Nat) :
    ∀ (i : Nat) (ls : List String),
      annotatedWrites "" clock i ls = interleaveTs clock i ls
  | _, [] => rfl
  | i, l :: ls => by
      rw [annotatedWrites, interleaveTs, startswith_empty_marker,
        annotatedWrites_empty_marker clock (i + 1) ls]
      simp

theorem closeSink_not_mem_captureLoop (marker : String) (clock : Nat → Nat)
    (lines : List String) : Event.closeSink ∉ captureLoop marker clock lines := by
  intro h
  rcases mem_captureFrom marker clock 0 lines _ h with ⟨l, hl⟩ | ⟨l, hl⟩ | ⟨l, hl⟩ <;>
    simp at hl

theorem raiseFault_not_mem_captureLoop (marker : String) (clock : Nat → Nat)
    (lines : List String) (g : LoopFault) :
    Event.raiseFault g ∉ captureLoop marker clock lines := by
  intro h
  rcases mem_captureFrom marker clock 0 lines _ h with ⟨l, hl⟩ | ⟨l, hl⟩ | ⟨l, hl⟩ <;>
    simp at hl

/-! Claim theorems. -/

/-- C1: for every line read by the capture loop, a timestamp record is
written to the output sink iff the line starts with the marker, and when
written it is exactly one record, placed immediately after that line and
before any subsequent line's content: the sequence of writes equals the
specification-side annotated sequence. -/
theorem captureLoop_writes_annotated (marker : String) (clock : Nat → Nat)
    (lines : List String) :
    writes (captureLoop marker clock lines) = annotatedWrites marker clock 0 lines :=
  writes_captureFrom marker clock 0 lines

/-- C2 (evaluating the code at the failing input): with marker `"R"`,
clock value 0, and received lines `"R123\n"` then `"X456\n"`, the sink's
text is `"R123\nRPI_rx_ts_nanosec:0X456\n"`: the timestamp record carries
no line terminator, so the physical lines of the sink are `R123`,
`RPI_rx_ts_nanosec:0X456` — the record and the following received line
share one physical line, not one record per line. -/
theorem tsRecord_not_a_complete_line :
    output (captureLoop "R" (fun i => i) ["R123\n", "X456\n"]) =
        "R123\nRPI_rx_ts_nanosec:0X456\n" ∧
      physicalLines (output (captureLoop "R" (fun i => i) ["R123\n", "X456\n"])) =
        ["R123", "RPI_rx_ts_nanosec:0X456", ""] := by
  constructor <;> decide

/-- C3: every complete line read appears verbatim among the strings
written to the output sink, in the order received. -/
theorem captureLoop_lines_verbatim_in_order (marker : String) (clock : Nat → Nat)
    (lines : List String) :
    List.Sublist lines (writes (captureLoop marker clock lines)) := by
  rw [captureLoop, writes_captureFrom]
  exact sublist_annotatedWrites marker clock 0 lines

/-- C4 counterexample: on the matched line `"R\n"` the clock sample does
not precede the first write to the output sink — the source writes the
line (line 10) before sampling the clock (line 12). -/
theorem clock_sample_not_before_write_cex :
    startswith "R\n" "R" = true ∧ ¬ sampleBeforeWrite (forwardLine "R" 0 "R\n") := by
  refine ⟨by decide, ?_⟩
  unfold sampleBeforeWrite
  decide

/-- C4 (amended): for every line that starts with the marker, the clock
is sampled immediately after the line read returns and after the line
itself is written to the output sink, and before the timestamp record is
written. -/
theorem clock_sample_after_line_write (marker : String) (t : Nat) (l : String)
    (h : startswith l marker = true) :
    forwardLine marker t l =
      [Event.readLine l, Event.writeStr l, Event.clockSample t,
        Event.writeStr (tsRecord t)] := by
  simp [forwardLine, h]

/-- Witness for the amended C4 theorem at marker `"R"`, line `"R\n"`. -/
theorem clock_sample_after_line_write_witness :
    forwardLine "R" 0 "R\n" =
      [Event.readLine "R\n", Event.writeStr "R\n", Event.clockSample 0,
        Event.writeStr (tsRecord 0)] :=
  clock_sample_after_line_write "R" 0 "R\n" (by decide)

/-- C5 counterexample: with an empty framing buffer and a raw stream in
the would-block state (a raw read finds no data), `readline` returns the
empty string — not a complete newline-terminated line. -/
theorem readline_empty_result_cex :
    readlineFrom "" [""] = ("", "", []) ∧ ¬ returnsCompleteLine "" [""] := by
  refine ⟨by decide, ?_⟩
  unfold returnsCompleteLine
  decide

/-- C5 (amended): when the buffered text holds no newline and the next
raw read finds no data (would-block), `readline` returns immediately with
exactly the buffered text — possibly empty or a partial line — instead of
retrying until a full line is assembled. -/
theorem readline_would_block_returns_buffer (buf : String) (cs : List String)
    (h : buf.data.contains '\n' = false) :
    readlineFrom buf ("" :: cs) = (buf, "", cs) := by
  have h' : '\n' ∉ buf.data := by simpa using h
  simp [readlineFrom, h']

/-- Witness for the amended C5 theorem: buffered partial line `"R1"`,
one would-block raw read. -/
theorem readline_would_block_returns_buffer_witness :
    ("R1" : String).data.contains '\n' = false ∧
      readlineFrom "R1" [""] = ("R1", "", []) :=
  ⟨by decide, readline_would_block_returns_buffer "R1" [] (by decide)⟩

/-- C6: with marker `"R"` and received lines `"R123\n"`, `"X456\n"`,
`"R789\n"`, the writes to the sink are, in order: the line `R123`, one
timestamp record, the line `X456`, the line `R789`, one timestamp
record — exactly two records, each immediately after its matching
line. -/
theorem captureLoop_end_to_end_scenario (clock : Nat → Nat) :
    writes (captureLoop "R" clock ["R123\n", "X456\n", "R789\n"]) =
      ["R123\n", tsRecord (clock 0), "X456\n", "R789\n", tsRecord (clock 2)] := by
  have h1 : startswith "R123\n" "R" = true := by decide
  have h2 : startswith "X456\n" "R" = false := by decide
  have h3 : startswith "R789\n" "R" = true := by decide
  rw [captureLoop, writes_captureFrom]
  simp [annotatedWrites, h1, h2, h3]

/-- C7: when the monotonic clock is monotone over the iterations of one
run, the successive timestamp sample values carried by the run's
timestamp records are non-decreasing. -/
theorem captureLoop_timestamps_monotone (marker : String) (clock : Nat → Nat)
    (lines : List String) (hmono : Monotone clock) :
    List.Chain' (· ≤ ·) (sampleValues (captureLoop marker clock lines)) := by
  rw [captureLoop, sampleValues_captureFrom, List.chain'_map]
  exact (matchedIdx_chain marker 0 lines).imp fun a b h => hmono h.le

/-- Witness for C7 with the identity clock and two matched lines. -/
theorem captureLoop_timestamps_monotone_witness :
    List.Chain' (· ≤ ·)
      (sampleValues (captureLoop "R" (fun n => n) ["R1\n", "X\n", "R2\n"])) :=
  captureLoop_timestamps_monotone "R" (fun n => n) ["R1\n", "X\n", "R2\n"]
    (fun _ _ h => h)

/-- C8: the operator interrupt is the only handled fault: the sink close
happens in a run of `main` iff the loop ended with `KeyboardInterrupt`,
and a fault leaves `main` uncaught (skipping the close) iff it is any
other fault. -/
theorem mainRun_interrupt_only_handled (filename marker : String) (clock : Nat → Nat)
    (lines : List String) (f : LoopFault) :
    (Event.closeSink ∈ mainRun filename marker clock lines f ↔
        f = LoopFault.keyboardInterrupt) ∧
      ∀ g, (Event.raiseFault g ∈ mainRun filename marker clock lines f ↔
        (f = g ∧ f ≠ LoopFault.keyboardInterrupt)) := by
  have hc := closeSink_not_mem_captureLoop marker clock lines
  have hr := raiseFault_not_mem_captureLoop marker clock lines
  constructor
  · cases f <;> simp [mainRun, List.mem_append, hc, captureLoop] at * <;>
      simp [mainRun, List.mem_append, hc]
  · intro g
    cases f <;> simp [mainRun, List.mem_append, hr g] <;> tauto

/-- C9: with an empty marker, every line passes the marker check, so
every written line is immediately followed by exactly one timestamp
record. -/
theorem captureLoop_empty_marker_annotates_every_line (clock : Nat → Nat)
    (lines : List String) :
    writes (captureLoop "" clock lines) = interleaveTs clock 0 lines := by
  rw [captureLoop, writes_captureFrom, annotatedWrites_empty_marker]

/-- C10: an iteration whose read returns the empty string contributes no
text to the output sink when the marker is non-empty; when the marker is
empty the empty result still passes the marker check and the iteration's
sole sink contribution is a timestamp record, with no preceding
triggering line. -/
theorem forwardLine_empty_line_behavior (marker : String) (t : Nat) :
    (marker ≠ "" → output (forwardLine marker t "") = "") ∧
      (marker = "" → output (forwardLine marker t "") = tsRecord t) := by
  constructor
  · intro hne
    have hsw : startswith "" marker = false := by
      obtain ⟨data⟩ := marker
      cases data with
      | nil => exact absurd rfl hne
      | cons c cs => rfl
    unfold output
    rw [writes_forwardLine, hsw]
    simp [String.join]
  · intro he
    subst he
    unfold output
    rw [writes_forwardLine, startswith_empty_marker]
    simp [String.join, String.empty_append]

/-- Witness for C10 at marker `"R"` (non-empty case) and marker `""`
(empty case), clock value 7. -/
theorem forwardLine_empty_line_behavior_witness :
    output (forwardLine "R" 7 "") = "" ∧ output (forwardLine "" 7 "") = tsRecord 7 :=
  ⟨(forwardLine_empty_line_behavior "R" 7).1 (by decide),
    (forwardLine_empty_line_behavior "" 7).2 rfl⟩
